import Mathlib

/-!
Shallow embedding of `src/ocr_api.py` (the `/ocr` endpoint, function
`ocr_file`).

The endpoint saves the upload to a temp file, then:
  * if the (lowercased) filename ends in `".pdf"`, reads the page count
    with `PyPDF2.PdfReader`, and for each page index `i` in
    `range(pageCount)` calls `pdf2image.convert_from_path` for the single
    page `i+1` at dpi 200, runs `pytesseract.image_to_string` on the
    resulting image, appends the labeled fragment
    `"\n--- Page {i+1} ---\n{text}"`, and `del`s the image list;
  * otherwise opens the file with `PIL.Image.open(...).convert("RGB")` and
    runs `pytesseract.image_to_string` on it;
finally it returns `{"text": "".join(texts)}`, and in a `finally:` block
removes the temp file.

External library calls (PyPDF2, pdf2image, PIL, pytesseract) are
parameters of the embedding (an `Env`), so the pipeline is a deterministic
function of the environment, the filename and the language.  A run also
produces a trace of observable `Event`s (page-count read, rasterization,
bitmap acquisition/release, recognition, temp-file removal), which lets us
state the call-counting, lifecycle and resource claims.
-/

/-- The PIL color modes relevant to this program: `RGB` (full color, the
result of `.convert("RGB")` and the default output of
`pdf2image.convert_from_path`) and `L` (8-bit grayscale). -/
inductive PyMode where
  | RGB
  | L
deriving DecidableEq

/-- A decoded bitmap as handed around by the code: a color mode plus the
(abstract) pixel content. -/
structure PILImage where
  mode : PyMode
  content : String
deriving DecidableEq

/-- Observable actions of one request, in program order. -/
inductive Event where
  /-- `PdfReader(tmp_path)` / `len(reader.pages)` (line 62/65). -/
  | readPageCount
  /-- `convert_from_path(tmp_path, dpi=200, first_page=p, last_page=p)`
  (line 68), i.e. rasterization of PDF page `p` (1-based). -/
  | convertFromPath (page : Nat)
  /-- The page bitmap returned by `convert_from_path` becomes live. -/
  | acquire (page : Nat)
  /-- `pytesseract.image_to_string(img, lang=lang)` (line 73/89) applied to
  the recorded bitmap. -/
  | recognize (img : PILImage)
  /-- `del images` (line 79): the page bitmap is freed. -/
  | release (page : Nat)
  /-- `Image.open(tmp_path)` (line 86): single-image rasterization. -/
  | imageOpen
  /-- `os.remove(tmp_path)` in the `finally:` block (line 102). -/
  | removeTemp
deriving DecidableEq

/-- The behavior of the external libraries for one uploaded document: what
each call the program can make would return.  Each field is a function, so
the whole environment is deterministic by construction. -/
structure Env where
  /-- Outcome of `PdfReader(tmp_path)` followed by `len(reader.pages)`:
  the page count, or the raised error message. -/
  pdfPages : Except String Nat
  /-- Raw rasterized content of one PDF page at a given dpi, as produced by
  the pdf2image backend: `rasterContent dpi page` is the pixel content for
  1-based `page`, or the raised error message. -/
  rasterContent : Nat → Nat → Except String String
  /-- Content obtained by `Image.open(tmp_path)` on the uploaded bytes, or
  the raised error message. -/
  imageContent : Except String String
  /-- `pytesseract.image_to_string(img, lang=lang)`: recognized text for a
  bitmap and a language code, or the raised error message. -/
  tess : PILImage → String → Except String String

/-- Python `str.lower()`: per-character case folding (ASCII folding is all
that `".pdf"` detection exercises). -/
def pyLower (s : String) : String := ⟨s.data.map Char.toLower⟩

/-- Python `str.endswith(suffix)`: suffix test on the character sequence. -/
def pyEndsWith (s suffix : String) : Bool := List.isSuffixOf suffix.data s.data

/-- `pdf2image.convert_from_path(path, dpi=dpi, first_page=first,
last_page=last)`: one image per page of `[first, last]`.  The library
returns RGB images unless `grayscale=True` is passed; the call in
`ocr_api.py` line 68 passes no color argument, i.e. `grayscale := false`. -/
def convert_from_path (env : Env) (dpi first last : Nat) (grayscale : Bool) :
    Except String (List PILImage) :=
  (List.range (last + 1 - first)).mapM fun k =>
    (env.rasterContent dpi (first + k)).map fun c =>
      { mode := if grayscale then PyMode.L else PyMode.RGB, content := c }

/-- The body of one iteration of the per-page loop (lines 65-79) for loop
index `i` (page `i+1`): rasterize the single page, take `images[0]`, run
Tesseract, and label the text.  An `error` is a Python exception
propagating out of the iteration. -/
def pageOutcome (env : Env) (lang : String) (i : Nat) : Except String String :=
  match convert_from_path env 200 (i + 1) (i + 1) false with
  | .error e => .error e
  | .ok images =>
    match images.head? with
    | none => .error "IndexError: list index out of range"
    | some img =>
      match env.tess img lang with
      | .error e => .error e
      | .ok text => .ok ("\n--- Page " ++ toString (i + 1) ++ " ---\n" ++ text)

/-- The events emitted by one iteration of the per-page loop for loop index
`i`.  On the success path the bitmap is released by `del images`; when
Tesseract raises, control leaves the loop before `del images`, so no
release is emitted. -/
def pageEvents (env : Env) (lang : String) (i : Nat) : List Event :=
  match convert_from_path env 200 (i + 1) (i + 1) false with
  | .error _ => [.convertFromPath (i + 1)]
  | .ok images =>
    match images.head? with
    | none => [.convertFromPath (i + 1)]
    | some img =>
      match env.tess img lang with
      | .error _ => [.convertFromPath (i + 1), .acquire (i + 1), .recognize img]
      | .ok _ =>
          [.convertFromPath (i + 1), .acquire (i + 1), .recognize img,
           .release (i + 1)]

/-- The per-page `for i in range(n)` loop of lines 65-79, over the list of
remaining loop indices: collects the labeled fragments in order, stopping
(with the exception propagating) at the first failing page. -/
def pdfPagesLoop (env : Env) (lang : String) :
    List Nat → Except String (List String) × List Event
  | [] => (.ok [], [])
  | i :: rest =>
    match pageOutcome env lang i with
    | .error e => (.error e, pageEvents env lang i)
    | .ok frag =>
      let r := pdfPagesLoop env lang rest
      (r.1.map fun frags => frag :: frags, pageEvents env lang i ++ r.2)

instance {ε α : Type} [DecidableEq ε] [DecidableEq α] :
    DecidableEq (Except ε α) := fun a b =>
  match a, b with
  | .error x, .error y =>
    if h : x = y then isTrue (by rw [h]) else isFalse (by simp [h])
  | .error _, .ok _ => isFalse (by simp)
  | .ok _, .error _ => isFalse (by simp)
  | .ok x, .ok y =>
    if h : x = y then isTrue (by rw [h]) else isFalse (by simp [h])

/-- The outcome of one request: the value of the `"text"` field of the JSON
response on success, or the propagated exception; plus the emitted events. -/
structure RunResult where
  outcome : Except String String
  events : List Event
deriving DecidableEq

/-- The `try:` block of `ocr_file` (lines 56-96), for an already-saved
upload: branch on `file.filename.lower().endswith(".pdf")`; the PDF branch
reads the page count and runs the per-page loop, the image branch opens
the file, converts it to RGB and recognizes it once; the result is the
`"text"` field `"".join(texts)` of the response, or the exception leaving
the block. -/
def tryBody (env : Env) (filename lang : String) :
    Except String String × List Event :=
  if pyEndsWith (pyLower filename) ".pdf" then
    match env.pdfPages with
    | .error e => (.error e, [.readPageCount])
    | .ok n =>
      let r := pdfPagesLoop env lang (List.range n)
      (r.1.map fun texts => String.join texts, Event.readPageCount :: r.2)
  else
    match env.imageContent with
    | .error e => (.error e, [.imageOpen])
    | .ok c =>
      match env.tess { mode := PyMode.RGB, content := c } lang with
      | .error e => (.error e,
          [.imageOpen, .recognize { mode := PyMode.RGB, content := c }])
      | .ok text => (.ok text,
          [.imageOpen, .recognize { mode := PyMode.RGB, content := c }])

/-- The `/ocr` endpoint `ocr_file` (lines 35-102): the `try:` body
followed by the `finally:` block, which removes the temp file whether the
body returned or raised (lines 98-102). -/
def ocr_file (env : Env) (filename lang : String) : RunResult :=
  { outcome := (tryBody env filename lang).1,
    events := (tryBody env filename lang).2 ++ [.removeTemp] }

/-! ### Characterization lemmas -/

/-- `convert_from_path` for a single page (`first = last = p`, as at every
call site): a one-element image list, in grayscale or RGB according to the
`grayscale` argument. -/
theorem convert_from_path_single (env : Env) (d p : Nat) (g : Bool) :
    convert_from_path env d p p g =
      (env.rasterContent d p).map fun c =>
        [({ mode := if g then PyMode.L else PyMode.RGB, content := c } :
          PILImage)] := by
  unfold convert_from_path
  have h : p + 1 - p = 1 := by omega
  rw [h]
  have h1 : List.range 1 = [0] := rfl
  cases hr : env.rasterContent d p <;>
    simp [h1, List.mapM.loop, Except.map, Bind.bind, Except.bind, Pure.pure,
      Except.pure, Nat.add_zero, hr]

/-- Shape of one loop iteration's outcome in terms of the environment. -/
theorem pageOutcome_eq (env : Env) (lang : String) (i : Nat) :
    pageOutcome env lang i =
      match env.rasterContent 200 (i + 1) with
      | .error e => .error e
      | .ok c =>
        match env.tess { mode := PyMode.RGB, content := c } lang with
        | .error e => .error e
        | .ok text =>
            .ok ("\n--- Page " ++ toString (i + 1) ++ " ---\n" ++ text) := by
  unfold pageOutcome
  rw [convert_from_path_single]
  cases hr : env.rasterContent 200 (i + 1) with
  | error e => rfl
  | ok c =>
    cases ht : env.tess { mode := PyMode.RGB, content := c } lang <;>
      simp [Except.map, List.head?, ht]

/-- Shape of one loop iteration's event trace in terms of the environment. -/
theorem pageEvents_eq (env : Env) (lang : String) (i : Nat) :
    pageEvents env lang i =
      match env.rasterContent 200 (i + 1) with
      | .error _ => [.convertFromPath (i + 1)]
      | .ok c =>
        match env.tess { mode := PyMode.RGB, content := c } lang with
        | .error _ => [.convertFromPath (i + 1), .acquire (i + 1),
            .recognize { mode := PyMode.RGB, content := c }]
        | .ok _ => [.convertFromPath (i + 1), .acquire (i + 1),
            .recognize { mode := PyMode.RGB, content := c },
            .release (i + 1)] := by
  unfold pageEvents
  rw [convert_from_path_single]
  cases hr : env.rasterContent 200 (i + 1) with
  | error e => rfl
  | ok c =>
    cases ht : env.tess { mode := PyMode.RGB, content := c } lang <;>
      simp [Except.map, List.head?, ht]

/-- If every index in `l` succeeds, the loop returns all its fragments, in
the order of `l`. -/
theorem pdfPagesLoop_all_ok (env : Env) (lang : String) (f : Nat → String) :
    ∀ l : List Nat, (∀ i ∈ l, pageOutcome env lang i = .ok (f i)) →
      (pdfPagesLoop env lang l).1 = .ok (l.map f)
  | [], _ => rfl
  | i :: rest, h => by
    have hi : pageOutcome env lang i = .ok (f i) := h i (by simp)
    have hrest := pdfPagesLoop_all_ok env lang f rest
      (fun j hj => h j (by simp [hj]))
    simp [pdfPagesLoop, hi, hrest, Except.map]

/-- Splitting the loop at a failure: if every index of `l₁` succeeds and
the loop on `l₂` fails with `e`, then the loop on `l₁ ++ l₂` fails with
`e` and its trace is the two traces in sequence. -/
theorem pdfPagesLoop_append_fail (env : Env) (lang : String) :
    ∀ l₁ l₂ : List Nat, (∀ i ∈ l₁, ∃ s, pageOutcome env lang i = .ok s) →
      ∀ e, (pdfPagesLoop env lang l₂).1 = .error e →
      (pdfPagesLoop env lang (l₁ ++ l₂)).1 = .error e ∧
      (pdfPagesLoop env lang (l₁ ++ l₂)).2 =
        (pdfPagesLoop env lang l₁).2 ++ (pdfPagesLoop env lang l₂).2
  | [], l₂, _, e, he => by simp [pdfPagesLoop, he]
  | i :: rest, l₂, h, e, he => by
    obtain ⟨s, hs⟩ := h i (by simp)
    have ih := pdfPagesLoop_append_fail env lang rest l₂
      (fun j hj => h j (by simp [hj])) e he
    simp [pdfPagesLoop, hs, ih.1, ih.2, Except.map]

/-- The only rasterization event one iteration can emit is for its own
page `i + 1`. -/
theorem pageEvents_convert (env : Env) (lang : String) (i p : Nat) :
    Event.convertFromPath p ∈ pageEvents env lang i → p = i + 1 := by
  intro h
  rw [pageEvents_eq] at h
  split at h
  · simpa using h
  · split at h
    · simpa using h
    · simpa using h

/-- Every rasterization event of the loop belongs to one of its indices. -/
theorem pdfPagesLoop_convert (env : Env) (lang : String) :
    ∀ l : List Nat, ∀ p, Event.convertFromPath p ∈ (pdfPagesLoop env lang l).2 →
      ∃ i ∈ l, p = i + 1
  | [], p, h => by simp [pdfPagesLoop] at h
  | i :: rest, p, h => by
    cases ho : pageOutcome env lang i with
    | error e =>
      rw [pdfPagesLoop] at h
      rw [ho] at h
      exact ⟨i, by simp, pageEvents_convert env lang i p h⟩
    | ok frag =>
      rw [pdfPagesLoop] at h
      rw [ho] at h
      simp only [List.mem_append] at h
      rcases h with h | h
      · exact ⟨i, by simp, pageEvents_convert env lang i p h⟩
      · obtain ⟨j, hj, hp⟩ := pdfPagesLoop_convert env lang rest p h
        exact ⟨j, by simp [hj], hp⟩

/-- Any bitmap recognized during one loop iteration is in RGB mode. -/
theorem pageEvents_recognize_mode (env : Env) (lang : String) (i : Nat)
    (img : PILImage) :
    Event.recognize img ∈ pageEvents env lang i → img.mode = PyMode.RGB := by
  intro h
  rw [pageEvents_eq] at h
  split at h
  · simp at h
  · split at h
    · simp at h
      subst h
      rfl
    · simp at h
      subst h
      rfl

/-- Any bitmap recognized during the loop is in RGB mode. -/
theorem pdfPagesLoop_recognize_mode (env : Env) (lang : String) :
    ∀ l : List Nat, ∀ img, Event.recognize img ∈ (pdfPagesLoop env lang l).2 →
      img.mode = PyMode.RGB
  | [], img, h => by simp [pdfPagesLoop] at h
  | i :: rest, img, h => by
    cases ho : pageOutcome env lang i with
    | error e =>
      rw [pdfPagesLoop] at h
      rw [ho] at h
      exact pageEvents_recognize_mode env lang i img h
    | ok frag =>
      rw [pdfPagesLoop] at h
      rw [ho] at h
      simp only [List.mem_append] at h
      rcases h with h | h
      · exact pageEvents_recognize_mode env lang i img h
      · exact pdfPagesLoop_recognize_mode env lang rest img h

/-- Specialization: when `convert_from_path` fails for page `i + 1`, the
iteration propagates the error having emitted only the rasterization call. -/
theorem page_raster_error (env : Env) (lang : String) (i : Nat) (e : String)
    (hr : env.rasterContent 200 (i + 1) = .error e) :
    pageOutcome env lang i = .error e ∧
      pageEvents env lang i = [.convertFromPath (i + 1)] := by
  refine ⟨?_, ?_⟩
  · rw [pageOutcome_eq, hr]
  · rw [pageEvents_eq, hr]

/-- Specialization: when rasterization succeeds but Tesseract fails, the
iteration propagates the error after rasterizing, acquiring the bitmap and
entering recognition; `del images` is never reached. -/
theorem page_tess_error (env : Env) (lang : String) (i : Nat) (c e : String)
    (hr : env.rasterContent 200 (i + 1) = .ok c)
    (ht : env.tess { mode := PyMode.RGB, content := c } lang = .error e) :
    pageOutcome env lang i = .error e ∧
      pageEvents env lang i = [.convertFromPath (i + 1), .acquire (i + 1),
        .recognize { mode := PyMode.RGB, content := c }] := by
  refine ⟨?_, ?_⟩
  · simp only [pageOutcome_eq, hr, ht]
  · simp only [pageEvents_eq, hr, ht]

/-- Specialization: a fully successful iteration yields the labeled
fragment and the complete rasterize/acquire/recognize/release lifecycle. -/
theorem page_ok (env : Env) (lang : String) (i : Nat) (c t : String)
    (hr : env.rasterContent 200 (i + 1) = .ok c)
    (ht : env.tess { mode := PyMode.RGB, content := c } lang = .ok t) :
    pageOutcome env lang i =
        .ok ("\n--- Page " ++ toString (i + 1) ++ " ---\n" ++ t) ∧
      pageEvents env lang i = [.convertFromPath (i + 1), .acquire (i + 1),
        .recognize { mode := PyMode.RGB, content := c }, .release (i + 1)] := by
  refine ⟨?_, ?_⟩
  · simp only [pageOutcome_eq, hr, ht]
  · simp only [pageEvents_eq, hr, ht]

/-- `e` is a bitmap-acquisition event. -/
def Event.isAcquire : Event → Bool
  | .acquire _ => true
  | _ => false

/-- `e` is a bitmap-release event. -/
def Event.isRelease : Event → Bool
  | .release _ => true
  | _ => false

/-- Traces the sequential per-page loop can emit: a sequence of complete
page lifecycles (rasterize, acquire the bitmap, recognize, release by
`del images`), possibly ended by one lifecycle aborted by an exception,
either right after the rasterization call or after entering recognition. -/
inductive SeqTrace : List Event → Prop where
  | nil : SeqTrace []
  | abortRaster (p : Nat) : SeqTrace [.convertFromPath p]
  | abortRecognize (p : Nat) (img : PILImage) :
      SeqTrace [.convertFromPath p, .acquire p, .recognize img]
  | step (p : Nat) (img : PILImage) (rest : List Event) : SeqTrace rest →
      SeqTrace (.convertFromPath p :: .acquire p :: .recognize img ::
        .release p :: rest)

/-- The per-page loop's trace always has the sequential lifecycle shape. -/
theorem pdfPagesLoop_seqTrace (env : Env) (lang : String) :
    ∀ l : List Nat, SeqTrace (pdfPagesLoop env lang l).2
  | [] => SeqTrace.nil
  | i :: rest => by
    have ih := pdfPagesLoop_seqTrace env lang rest
    cases hr : env.rasterContent 200 (i + 1) with
    | error e =>
      obtain ⟨ho, he⟩ := page_raster_error env lang i e hr
      simp only [pdfPagesLoop, ho, he]
      exact SeqTrace.abortRaster (i + 1)
    | ok c =>
      cases ht : env.tess { mode := PyMode.RGB, content := c } lang with
      | error e =>
        obtain ⟨ho, he⟩ := page_tess_error env lang i c e hr ht
        simp only [pdfPagesLoop, ho, he]
        exact SeqTrace.abortRecognize (i + 1) _
      | ok t =>
        obtain ⟨ho, he⟩ := page_ok env lang i c t hr ht
        simp only [pdfPagesLoop, ho, he, List.cons_append, List.nil_append]
        exact SeqTrace.step (i + 1) _ _ ih

/-- Along any trace the loop can emit, at every reachable point the number
of acquired bitmaps exceeds the number of released ones by at most one:
never two live `PageBitmap`s. -/
theorem SeqTrace.live_le {evs : List Event} (h : SeqTrace evs) :
    ∀ pre t : List Event, pre ++ t = evs →
      pre.countP Event.isAcquire ≤ pre.countP Event.isRelease + 1 := by
  induction h with
  | nil =>
    intro pre t hpre
    rcases List.append_eq_nil.mp hpre with ⟨rfl, rfl⟩
    simp
  | abortRaster p =>
    intro pre t hpre
    rcases pre with _ | ⟨x, pre⟩
    · simp
    · simp only [List.cons_append, List.cons.injEq] at hpre
      obtain ⟨rfl, hpre⟩ := hpre
      rcases List.append_eq_nil.mp hpre with ⟨rfl, rfl⟩
      simp [List.countP_cons, Event.isAcquire, Event.isRelease]
  | abortRecognize p img =>
    intro pre t hpre
    rcases pre with _ | ⟨x, _ | ⟨y, _ | ⟨z, pre⟩⟩⟩ <;>
      simp only [List.cons_append, List.cons.injEq, List.nil_append] at hpre
    · simp
    · obtain ⟨rfl, hpre⟩ := hpre
      simp [List.countP_cons, Event.isAcquire, Event.isRelease]
    · obtain ⟨rfl, rfl, hpre⟩ := hpre
      simp [List.countP_cons, Event.isAcquire, Event.isRelease]
    · obtain ⟨rfl, rfl, rfl, hpre⟩ := hpre
      rcases List.append_eq_nil.mp hpre with ⟨rfl, rfl⟩
      simp [List.countP_cons, Event.isAcquire, Event.isRelease]
  | step p img rest hrest ih =>
    intro pre t hpre
    rcases pre with _ | ⟨x, _ | ⟨y, _ | ⟨z, _ | ⟨w, pre⟩⟩⟩⟩ <;>
      simp only [List.cons_append, List.cons.injEq, List.nil_append] at hpre
    · simp
    · obtain ⟨rfl, hpre⟩ := hpre
      simp [List.countP_cons, Event.isAcquire, Event.isRelease]
    · obtain ⟨rfl, rfl, hpre⟩ := hpre
      simp [List.countP_cons, Event.isAcquire, Event.isRelease]
    · obtain ⟨rfl, rfl, rfl, hpre⟩ := hpre
      simp [List.countP_cons, Event.isAcquire, Event.isRelease]
    · obtain ⟨rfl, rfl, rfl, rfl, hpre⟩ := hpre
      have := ih pre t hpre
      simp [List.countP_cons, Event.isAcquire, Event.isRelease]
      omega

/-- Along any trace the loop can emit, every rasterization call happens
with no live bitmap: all previously acquired bitmaps have been released
before the next page's rasterization begins. -/
theorem SeqTrace.balanced_at_convert {evs : List Event} (h : SeqTrace evs) :
    ∀ pre t : List Event, ∀ p : Nat,
      pre ++ Event.convertFromPath p :: t = evs →
      pre.countP Event.isAcquire = pre.countP Event.isRelease := by
  induction h with
  | nil =>
    intro pre t p hpre
    simp at hpre
  | abortRaster q =>
    intro pre t p hpre
    rcases pre with _ | ⟨x, pre⟩
    · simp
    · simp only [List.cons_append, List.cons.injEq] at hpre
      obtain ⟨rfl, hpre⟩ := hpre
      simp at hpre
  | abortRecognize q img =>
    intro pre t p hpre
    rcases pre with _ | ⟨x, _ | ⟨y, _ | ⟨z, pre⟩⟩⟩ <;>
      simp only [List.cons_append, List.cons.injEq, List.nil_append] at hpre
    · simp
    · obtain ⟨rfl, hpre, _⟩ := hpre
      simp at hpre
    · obtain ⟨rfl, rfl, hpre, _⟩ := hpre
      simp at hpre
    · obtain ⟨rfl, rfl, rfl, hpre⟩ := hpre
      simp at hpre
  | step q img rest hrest ih =>
    intro pre t p hpre
    rcases pre with _ | ⟨x, _ | ⟨y, _ | ⟨z, _ | ⟨w, pre⟩⟩⟩⟩ <;>
      simp only [List.cons_append, List.cons.injEq, List.nil_append] at hpre
    · simp
    · obtain ⟨rfl, hpre, _⟩ := hpre
      simp at hpre
    · obtain ⟨rfl, rfl, hpre, _⟩ := hpre
      simp at hpre
    · obtain ⟨rfl, rfl, rfl, hpre, _⟩ := hpre
      simp at hpre
    · obtain ⟨rfl, rfl, rfl, rfl, hpre⟩ := hpre
      have := ih pre t p hpre
      simp [List.countP_cons, Event.isAcquire, Event.isRelease]
      omega

/-- An initial segment of a list has at most as many `p`-elements. -/
theorem countP_init_le {α : Type} (p : α → Bool) {pre t evs : List α}
    (h : pre ++ t = evs) : pre.countP p ≤ evs.countP p := by
  rw [← h, List.countP_append]
  exact Nat.le_add_right _ _

/-- An initial segment of `xs ++ ys` is an initial segment of `xs`, or all
of `xs` plus an initial segment of `ys`. -/
theorem init_of_append {α : Type} {pre t xs ys : List α}
    (h : pre ++ t = xs ++ ys) :
    (∃ u, pre ++ u = xs) ∨ ∃ q, pre = xs ++ q ∧ ∃ u, q ++ u = ys := by
  rcases List.append_eq_append_iff.mp h with ⟨w, hw1, hw2⟩ | ⟨q, hq1, hq2⟩
  · exact Or.inl ⟨w, hw1.symm⟩
  · exact Or.inr ⟨q, hq1, t, hq2.symm⟩

/-- A distinguished occurrence in `xs ++ ys` lies in `xs` or in `ys`. -/
theorem init_cons_of_append {α : Type} {pre t xs ys : List α} {a : α}
    (h : pre ++ a :: t = xs ++ ys) :
    (∃ u, pre ++ a :: u = xs) ∨ ∃ q, pre = xs ++ q ∧ ∃ u, q ++ a :: u = ys := by
  rcases List.append_eq_append_iff.mp h with ⟨w, hw1, hw2⟩ | ⟨q, hq1, hq2⟩
  · cases w with
    | nil =>
      right
      refine ⟨[], by simpa using hw1.symm, t, ?_⟩
      simpa using hw2
    | cons x w =>
      left
      rw [List.cons_append] at hw2
      injection hw2 with h1 h2
      refine ⟨w, ?_⟩
      rw [hw1, ← h1]
  · exact Or.inr ⟨q, hq1, t, hq2.symm⟩

/-- `try:` body, PDF branch, page count unreadable. -/
theorem tryBody_pdf_err (env : Env) (filename lang : String) (e : String)
    (hb : pyEndsWith (pyLower filename) ".pdf" = true)
    (hp : env.pdfPages = .error e) :
    tryBody env filename lang = (.error e, [.readPageCount]) := by
  simp [tryBody, hb, hp]

/-- `try:` body, PDF branch, page count `n`. -/
theorem tryBody_pdf_ok (env : Env) (filename lang : String) (n : Nat)
    (hb : pyEndsWith (pyLower filename) ".pdf" = true)
    (hp : env.pdfPages = .ok n) :
    tryBody env filename lang =
      ((pdfPagesLoop env lang (List.range n)).1.map
          (fun texts => String.join texts),
        Event.readPageCount :: (pdfPagesLoop env lang (List.range n)).2) := by
  simp [tryBody, hb, hp]

/-- `try:` body, image branch, `Image.open` fails. -/
theorem tryBody_img_err (env : Env) (filename lang : String) (e : String)
    (hb : pyEndsWith (pyLower filename) ".pdf" = false)
    (hi : env.imageContent = .error e) :
    tryBody env filename lang = (.error e, [.imageOpen]) := by
  simp [tryBody, hb, hi]

/-- `try:` body, image branch, Tesseract fails. -/
theorem tryBody_img_tess_err (env : Env) (filename lang : String)
    (c e : String)
    (hb : pyEndsWith (pyLower filename) ".pdf" = false)
    (hi : env.imageContent = .ok c)
    (ht : env.tess { mode := PyMode.RGB, content := c } lang = .error e) :
    tryBody env filename lang = (.error e,
      [.imageOpen, .recognize { mode := PyMode.RGB, content := c }]) := by
  simp [tryBody, hb, hi, ht]

/-- `try:` body, image branch, success. -/
theorem tryBody_img_ok (env : Env) (filename lang : String) (c t : String)
    (hb : pyEndsWith (pyLower filename) ".pdf" = false)
    (hi : env.imageContent = .ok c)
    (ht : env.tess { mode := PyMode.RGB, content := c } lang = .ok t) :
    tryBody env filename lang = (.ok t,
      [.imageOpen, .recognize { mode := PyMode.RGB, content := c }]) := by
  simp [tryBody, hb, hi, ht]

/-! ### Concrete environments used as witnesses and counterexamples -/

/-- A three-page PDF whose pages rasterize to `"P1"`, `"P2"`, `"P3"` and
recognize as `"A"`, `"B"`, `"C"`; not readable as a single image. -/
def envABC : Env where
  pdfPages := .ok 3
  rasterContent := fun _ p => .ok ("P" ++ toString p)
  imageContent := .error "UnidentifiedImageError"
  tess := fun img _ =>
    if img.content = "P1" then .ok "A"
    else if img.content = "P2" then .ok "B"
    else if img.content = "P3" then .ok "C"
    else .error "TesseractError"

/-- A three-page PDF whose second page makes Tesseract raise, while pages
1 and 3 would recognize fine. -/
def envBadPage2 : Env where
  pdfPages := .ok 3
  rasterContent := fun _ p => .ok ("P" ++ toString p)
  imageContent := .error "UnidentifiedImageError"
  tess := fun img _ =>
    if img.content = "P2" then .error "boom" else .ok ("T" ++ img.content)

/-- A PDF whose page count reads as zero. -/
def envZeroPages : Env where
  pdfPages := .ok 0
  rasterContent := fun _ _ => .error "unreachable"
  imageContent := .error "unreachable"
  tess := fun _ _ => .error "unreachable"

/-- An upload that is not a readable PDF (`PdfReader` raises) but is a
valid single image whose content recognizes as `"Hello"`. -/
def envHello : Env where
  pdfPages := .error "PdfReadError"
  rasterContent := fun _ _ => .error "PDFPageCountError"
  imageContent := .ok "IMG"
  tess := fun img _ =>
    if img.content = "IMG" then .ok "Hello" else .error "TesseractError"

/-! ### Claims -/

/-- C4: for a PDF whose page count is 0, the request succeeds with the
empty text; the only actions are the page-count read and the temp-file
removal — no rasterization, no recognition, no error. -/
theorem C4_zero_page_pdf_empty_text (env : Env) (filename lang : String)
    (hpdf : pyEndsWith (pyLower filename) ".pdf" = true)
    (h0 : env.pdfPages = .ok 0) :
    (ocr_file env filename lang).outcome = .ok "" ∧
    (ocr_file env filename lang).events = [.readPageCount, .removeTemp] := by
  have hb := tryBody_pdf_ok env filename lang 0 hpdf h0
  constructor <;>
    simp [ocr_file, hb, pdfPagesLoop, List.range_zero, Except.map,
      String.join, List.foldl_nil]

theorem C4_witness :
    (ocr_file envZeroPages "empty.pdf" "eng").outcome = .ok "" ∧
    (ocr_file envZeroPages "empty.pdf" "eng").events =
      [.readPageCount, .removeTemp] :=
  C4_zero_page_pdf_empty_text envZeroPages "empty.pdf" "eng" (by decide) rfl

/-- C6: when the PDF page count cannot be read, the error is the request
outcome; no rasterization and no recognition happen, and no partial text
is produced. -/
theorem C6_page_count_error_fatal (env : Env) (filename lang : String)
    (e : String)
    (hpdf : pyEndsWith (pyLower filename) ".pdf" = true)
    (he : env.pdfPages = .error e) :
    (ocr_file env filename lang).outcome = .error e ∧
    (ocr_file env filename lang).events = [.readPageCount, .removeTemp] := by
  have hb := tryBody_pdf_err env filename lang e hpdf he
  constructor <;> simp [ocr_file, hb]

theorem C6_witness :
    (ocr_file envHello "scan.pdf" "eng").outcome = .error "PdfReadError" ∧
    (ocr_file envHello "scan.pdf" "eng").events =
      [.readPageCount, .removeTemp] :=
  C6_page_count_error_fatal envHello "scan.pdf" "eng" "PdfReadError"
    (by decide) rfl

/-- C5: a non-PDF upload is processed by exactly one `Image.open` and one
recognition — no page-count read, no per-page rasterization — and the
recognized text is the response's text field. -/
theorem C5_single_image_once (env : Env) (filename lang : String)
    (c t : String)
    (hnot : pyEndsWith (pyLower filename) ".pdf" = false)
    (hc : env.imageContent = .ok c)
    (ht : env.tess { mode := PyMode.RGB, content := c } lang = .ok t) :
    (ocr_file env filename lang).outcome = .ok t ∧
    (ocr_file env filename lang).events =
      [.imageOpen, .recognize { mode := PyMode.RGB, content := c },
       .removeTemp] := by
  have hb := tryBody_img_ok env filename lang c t hnot hc ht
  constructor <;> simp [ocr_file, hb]

theorem C5_witness :
    (ocr_file envHello "photo.png" "eng").outcome = .ok "Hello" ∧
    (ocr_file envHello "photo.png" "eng").events =
      [.imageOpen, .recognize { mode := PyMode.RGB, content := "IMG" },
       .removeTemp] :=
  C5_single_image_once envHello "photo.png" "eng" "IMG" "Hello"
    (by decide) rfl (by decide)

/-- C9: on every path — success, page-level failure, page-count failure,
image failure — the last action of a request is the temp-file removal. -/
theorem C9_temp_file_always_removed (env : Env) (filename lang : String) :
    Event.removeTemp ∈ (ocr_file env filename lang).events ∧
    (ocr_file env filename lang).events.getLast? = some Event.removeTemp := by
  constructor
  · simp [ocr_file]
  · simp [ocr_file, List.getLast?_concat]

/-- C10: the branch taken depends only on the lowercased filename ending
in ".pdf": the first action is the PDF page-count read exactly in that
case, and the single-image open otherwise, whatever the uploaded bytes
(the whole `env`) are. -/
theorem C10_branch_by_filename_suffix (env : Env) (filename lang : String) :
    (ocr_file env filename lang).events.head? =
      some (if pyEndsWith (pyLower filename) ".pdf" then Event.readPageCount
        else Event.imageOpen) := by
  cases hb : pyEndsWith (pyLower filename) ".pdf" with
  | true =>
    cases hp : env.pdfPages with
    | error e => simp [ocr_file, tryBody_pdf_err env filename lang e hb hp, hb]
    | ok n => simp [ocr_file, tryBody_pdf_ok env filename lang n hb hp, hb]
  | false =>
    cases hi : env.imageContent with
    | error e => simp [ocr_file, tryBody_img_err env filename lang e hb hi, hb]
    | ok c =>
      cases ht : env.tess { mode := PyMode.RGB, content := c } lang with
      | error e =>
        simp [ocr_file, tryBody_img_tess_err env filename lang c e hb hi ht, hb]
      | ok t =>
        simp [ocr_file, tryBody_img_ok env filename lang c t hb hi ht, hb]

/-- C7: the pipeline is deterministic — it depends only on the behavior of
the external page-count reader, rasterizer, image opener and recognizer.
Two runs against collaborators that answer every call identically (in
particular, two runs against the same deterministic libraries) produce the
same outcome and the same trace. -/
theorem C7_deterministic (envA envB : Env) (filename lang : String)
    (hp : envA.pdfPages = envB.pdfPages)
    (hr : ∀ d p, envA.rasterContent d p = envB.rasterContent d p)
    (hi : envA.imageContent = envB.imageContent)
    (ht : ∀ img l, envA.tess img l = envB.tess img l) :
    ocr_file envA filename lang = ocr_file envB filename lang := by
  have henv : envA = envB := by
    obtain ⟨pA, rA, iA, tA⟩ := envA
    obtain ⟨pB, rB, iB, tB⟩ := envB
    simp only at hp hr hi ht
    rw [hp, hi, funext fun d => funext fun p => hr d p,
      funext fun img => funext fun l => ht img l]
  rw [henv]

theorem C7_witness :
    ocr_file envABC "doc.pdf" "eng" = ocr_file envABC "doc.pdf" "eng" :=
  C7_deterministic envABC envABC "doc.pdf" "eng" rfl (fun _ _ => rfl) rfl
    (fun _ _ => rfl)

/-- C2: a PDF with `n ≥ 1` pages, every page rasterizing to `c i` and
recognizing as `t i`, yields exactly the concatenation, in ascending page
order, of the fragments `"\n--- Page i+1 ---\n" ++ t i`. -/
theorem C2_ordered_concatenation (env : Env) (filename lang : String)
    (n : Nat) (c t : Nat → String)
    (hpdf : pyEndsWith (pyLower filename) ".pdf" = true)
    (hn : env.pdfPages = .ok n) (_hpos : 1 ≤ n)
    (hras : ∀ i, i < n → env.rasterContent 200 (i + 1) = .ok (c i))
    (hrec : ∀ i, i < n →
      env.tess { mode := PyMode.RGB, content := c i } lang = .ok (t i)) :
    (ocr_file env filename lang).outcome =
      .ok (String.join ((List.range n).map fun i =>
        "\n--- Page " ++ toString (i + 1) ++ " ---\n" ++ t i)) := by
  have hloop := pdfPagesLoop_all_ok env lang
    (fun i => "\n--- Page " ++ toString (i + 1) ++ " ---\n" ++ t i)
    (List.range n)
    (fun i hi => (page_ok env lang i (c i) (t i)
      (hras i (List.mem_range.mp hi)) (hrec i (List.mem_range.mp hi))).1)
  have hb := tryBody_pdf_ok env filename lang n hpdf hn
  simp [ocr_file, hb, hloop, Except.map]

theorem C2_witness :
    (ocr_file envABC "doc.pdf" "eng").outcome =
      .ok "\n--- Page 1 ---\nA\n--- Page 2 ---\nB\n--- Page 3 ---\nC" := by
  have h := C2_ordered_concatenation envABC "doc.pdf" "eng" 3
    (fun i => "P" ++ toString (i + 1))
    (fun i => if i = 0 then "A" else if i = 1 then "B" else "C")
    (by decide) rfl (by decide) (by decide) (by decide)
  rw [h]
  rfl

/-- C1 counterexample: on a three-page PDF whose second page makes the
recognizer raise, the request's outcome is that error — not a document of
three page results — and page 3 is never rasterized. -/
theorem C1_counterexample :
    (ocr_file envBadPage2 "doc.pdf" "eng").outcome = .error "boom" ∧
    Event.convertFromPath 3 ∉ (ocr_file envBadPage2 "doc.pdf" "eng").events := by
  constructor
  · decide
  · decide

/-- C1 (amended): the per-page loop has no failure boundary.  When page
`k + 1` is the first page whose rasterization or recognition raises, the
error propagates out of the request as its outcome (no failure-tagged
per-page result is produced) and the pages after `k + 1` are never
rasterized. -/
theorem C1_page_error_aborts_request (env : Env) (filename lang : String)
    (n k : Nat) (e : String)
    (hpdf : pyEndsWith (pyLower filename) ".pdf" = true)
    (hn : env.pdfPages = .ok n) (hk : k < n)
    (hbefore : ∀ i, i < k → ∃ s, pageOutcome env lang i = .ok s)
    (hfail : pageOutcome env lang k = .error e) :
    (ocr_file env filename lang).outcome = .error e ∧
    ∀ j, k < j →
      Event.convertFromPath (j + 1) ∉ (ocr_file env filename lang).events := by
  obtain ⟨m, rfl⟩ : ∃ m, n = k + m + 1 := ⟨n - k - 1, by omega⟩
  have hsplit : List.range (k + m + 1) =
      List.range' 0 k ++ (k :: List.range' (k + 1) m) := by
    have h1 := List.range'_append_1 0 k (m + 1)
    rw [Nat.zero_add, List.range'_succ] at h1
    rw [List.range_eq_range']
    have h2 : k + m + 1 = (m + 1) + k := by omega
    rw [h2, ← h1]
  have hloopfail : (pdfPagesLoop env lang (k :: List.range' (k + 1) m)).1 =
        .error e ∧
      (pdfPagesLoop env lang (k :: List.range' (k + 1) m)).2 =
        pageEvents env lang k := by
    constructor <;> simp [pdfPagesLoop, hfail]
  have hmem : ∀ i ∈ List.range' 0 k, ∃ s, pageOutcome env lang i = .ok s := by
    intro i hi
    refine hbefore i ?_
    have := List.mem_range'_1.mp hi
    omega
  have hfull := pdfPagesLoop_append_fail env lang (List.range' 0 k)
    (k :: List.range' (k + 1) m) hmem e hloopfail.1
  have hb := tryBody_pdf_ok env filename lang (k + m + 1) hpdf hn
  have hloop1 : (pdfPagesLoop env lang (List.range (k + m + 1))).1 =
      .error e := by
    rw [hsplit]
    exact hfull.1
  have hloop2 : (pdfPagesLoop env lang (List.range (k + m + 1))).2 =
      (pdfPagesLoop env lang (List.range' 0 k)).2 ++ pageEvents env lang k := by
    rw [hsplit, hfull.2, hloopfail.2]
  constructor
  · simp [ocr_file, hb, hloop1, Except.map]
  · intro j hj hcon
    have hev : (ocr_file env filename lang).events =
        Event.readPageCount ::
          ((pdfPagesLoop env lang (List.range (k + m + 1))).2 ++
            [Event.removeTemp]) := by
      simp [ocr_file, hb]
    rw [hev, hloop2] at hcon
    simp only [List.mem_cons, List.mem_append, List.mem_singleton] at hcon
    rcases hcon with hcon | (hcon | hcon) | hcon
    · exact absurd hcon (by simp)
    · obtain ⟨i, hi, hip⟩ := pdfPagesLoop_convert env lang _ _ hcon
      have hik := List.mem_range'_1.mp hi
      omega
    · have := pageEvents_convert env lang k (j + 1) hcon
      omega
    · exact absurd hcon (by simp)

theorem C1_witness :
    (ocr_file envBadPage2 "doc.pdf" "eng").outcome = .error "boom" ∧
    Event.convertFromPath 3 ∉ (ocr_file envBadPage2 "doc.pdf" "eng").events := by
  have h := C1_page_error_aborts_request envBadPage2 "doc.pdf" "eng" 3 1 "boom"
    (by decide) rfl (by decide)
    (fun i hi =>
      match i, hi with
      | 0, _ => ⟨"\n--- Page 1 ---\nTP1", by decide⟩
      | i + 1, hi => absurd hi (by omega))
    (by decide)
  exact ⟨h.1, h.2 2 (by decide)⟩

/-- C3 counterexample: with no color mode supplied by any caller, the
bitmap handed to the recognizer for page 1 of a PDF is in RGB mode, and
RGB is not grayscale. -/
theorem C3_counterexample :
    Event.recognize { mode := PyMode.RGB, content := "P1" } ∈
      (ocr_file envABC "doc.pdf" "eng").events ∧
    PyMode.RGB ≠ PyMode.L := by
  constructor
  · decide
  · decide

/-- C3 (amended): in the default configuration every bitmap handed to the
recognizer is in RGB (full color) mode: the PDF path requests pdf2image's
default color output, and the single-image path converts explicitly to
RGB. -/
theorem C3_recognized_bitmaps_are_rgb (env : Env) (filename lang : String)
    (img : PILImage)
    (h : Event.recognize img ∈ (ocr_file env filename lang).events) :
    img.mode = PyMode.RGB := by
  cases hb : pyEndsWith (pyLower filename) ".pdf" with
  | true =>
    cases hp : env.pdfPages with
    | error e =>
      simp [ocr_file, tryBody_pdf_err env filename lang e hb hp] at h
    | ok n =>
      simp [ocr_file, tryBody_pdf_ok env filename lang n hb hp] at h
      exact pdfPagesLoop_recognize_mode env lang (List.range n) img h
  | false =>
    cases hi : env.imageContent with
    | error e =>
      simp [ocr_file, tryBody_img_err env filename lang e hb hi] at h
    | ok c =>
      cases ht : env.tess { mode := PyMode.RGB, content := c } lang with
      | error e =>
        simp [ocr_file, tryBody_img_tess_err env filename lang c e hb hi ht] at h
        rw [h]
      | ok t =>
        simp [ocr_file, tryBody_img_ok env filename lang c t hb hi ht] at h
        rw [h]

theorem C3_witness :
    ({ mode := PyMode.RGB, content := "P1" } : PILImage).mode = PyMode.RGB :=
  C3_recognized_bitmaps_are_rgb envABC "doc.pdf" "eng"
    { mode := PyMode.RGB, content := "P1" } (by decide)

/-- Both C8 conjuncts hold vacuously for traces with no acquisition and no
rasterization event (the non-loop request shapes). -/
theorem no_acquire_no_convert_case {evs : List Event}
    (hA : evs.countP Event.isAcquire = 0)
    (hC : ∀ p, Event.convertFromPath p ∉ evs) :
    (∀ pre t : List Event, pre ++ t = evs →
      pre.countP Event.isAcquire ≤ pre.countP Event.isRelease + 1) ∧
    (∀ pre t : List Event, ∀ p : Nat,
      pre ++ Event.convertFromPath p :: t = evs →
      pre.countP Event.isAcquire = pre.countP Event.isRelease) := by
  constructor
  · intro pre t hpre
    have := countP_init_le Event.isAcquire hpre
    omega
  · intro pre t p hpre
    have hin : Event.convertFromPath p ∈ evs := by
      rw [← hpre]
      simp
    exact absurd hin (hC p)

/-- C8: in every reachable state of a run, at most one page bitmap is
live (acquisitions exceed releases by at most one along every initial
segment of the trace), and every rasterization call happens with zero live
bitmaps: each page's bitmap is released before the next page's
rasterization begins. -/
theorem C8_at_most_one_live_bitmap (env : Env) (filename lang : String) :
    (∀ pre t : List Event, pre ++ t = (ocr_file env filename lang).events →
      pre.countP Event.isAcquire ≤ pre.countP Event.isRelease + 1) ∧
    (∀ pre t : List Event, ∀ p : Nat,
      pre ++ Event.convertFromPath p :: t =
        (ocr_file env filename lang).events →
      pre.countP Event.isAcquire = pre.countP Event.isRelease) := by
  cases hb : pyEndsWith (pyLower filename) ".pdf" with
  | true =>
    cases hp : env.pdfPages with
    | error e =>
      have hev : (ocr_file env filename lang).events =
          [.readPageCount, .removeTemp] := by
        simp [ocr_file, tryBody_pdf_err env filename lang e hb hp]
      rw [hev]
      exact no_acquire_no_convert_case rfl (by intro p; simp)
    | ok n =>
      have hev : (ocr_file env filename lang).events =
          Event.readPageCount ::
            ((pdfPagesLoop env lang (List.range n)).2 ++ [Event.removeTemp]) := by
        simp [ocr_file, tryBody_pdf_ok env filename lang n hb hp]
      have hst := pdfPagesLoop_seqTrace env lang (List.range n)
      rw [hev]
      constructor
      · intro pre t hpre
        rcases pre with _ | ⟨x, pre⟩
        · simp
        · rw [List.cons_append] at hpre
          injection hpre with h1 h2
          subst h1
          rw [List.countP_cons_of_neg _ _ (by decide),
            List.countP_cons_of_neg _ _ (by decide)]
          rcases init_of_append h2 with ⟨u, hu⟩ | ⟨q, hq, u, hu⟩
          · exact SeqTrace.live_le hst pre u hu
          · subst hq
            rcases q with _ | ⟨y, q⟩
            · rw [List.append_nil]
              exact SeqTrace.live_le hst _ [] (by rw [List.append_nil])
            · rw [List.cons_append] at hu
              injection hu with hy hq2
              subst hy
              rcases List.append_eq_nil.mp hq2 with ⟨rfl, rfl⟩
              rw [List.countP_append, List.countP_append]
              have hmain := SeqTrace.live_le hst
                (pdfPagesLoop env lang (List.range n)).2 []
                (by rw [List.append_nil])
              have cA : List.countP Event.isAcquire [Event.removeTemp] = 0 := rfl
              have cR : List.countP Event.isRelease [Event.removeTemp] = 0 := rfl
              omega
      · intro pre t p hpre
        rcases pre with _ | ⟨x, pre⟩
        · rw [List.nil_append] at hpre
          injection hpre with h1 h2
          exact absurd h1 (by simp)
        · rw [List.cons_append] at hpre
          injection hpre with h1 h2
          subst h1
          rw [List.countP_cons_of_neg _ _ (by decide),
            List.countP_cons_of_neg _ _ (by decide)]
          rcases init_cons_of_append h2 with ⟨u, hu⟩ | ⟨q, hq, u, hu⟩
          · exact SeqTrace.balanced_at_convert hst pre u p hu
          · rcases q with _ | ⟨y, q⟩
            · rw [List.nil_append] at hu
              injection hu with hy hu2
              exact absurd hy (by simp)
            · rw [List.cons_append] at hu
              injection hu with hy hq2
              simp at hq2
  | false =>
    cases hi : env.imageContent with
    | error e =>
      have hev : (ocr_file env filename lang).events =
          [.imageOpen, .removeTemp] := by
        simp [ocr_file, tryBody_img_err env filename lang e hb hi]
      rw [hev]
      exact no_acquire_no_convert_case rfl (by intro p; simp)
    | ok c =>
      cases ht : env.tess { mode := PyMode.RGB, content := c } lang with
      | error e =>
        have hev : (ocr_file env filename lang).events =
            [.imageOpen, .recognize { mode := PyMode.RGB, content := c },
             .removeTemp] := by
          simp [ocr_file, tryBody_img_tess_err env filename lang c e hb hi ht]
        rw [hev]
        exact no_acquire_no_convert_case rfl (by intro p; simp)
      | ok t =>
        have hev : (ocr_file env filename lang).events =
            [.imageOpen, .recognize { mode := PyMode.RGB, content := c },
             .removeTemp] := by
          simp [ocr_file, tryBody_img_ok env filename lang c t hb hi ht]
        rw [hev]
        exact no_acquire_no_convert_case rfl (by intro p; simp)

theorem C8_witness :
    List.countP Event.isAcquire
        [Event.readPageCount, Event.convertFromPath 1, Event.acquire 1] ≤
      List.countP Event.isRelease
        [Event.readPageCount, Event.convertFromPath 1, Event.acquire 1] + 1 ∧
    List.countP Event.isAcquire [Event.readPageCount] =
      List.countP Event.isRelease [Event.readPageCount] :=
  ⟨(C8_at_most_one_live_bitmap envABC "doc.pdf" "eng").1
      [Event.readPageCount, Event.convertFromPath 1, Event.acquire 1]
      [Event.recognize { mode := PyMode.RGB, content := "P1" }, Event.release 1,
       Event.convertFromPath 2, Event.acquire 2,
       Event.recognize { mode := PyMode.RGB, content := "P2" }, Event.release 2,
       Event.convertFromPath 3, Event.acquire 3,
       Event.recognize { mode := PyMode.RGB, content := "P3" }, Event.release 3,
       Event.removeTemp] (by decide),
   (C8_at_most_one_live_bitmap envABC "doc.pdf" "eng").2
      [Event.readPageCount]
      [Event.acquire 1, Event.recognize { mode := PyMode.RGB, content := "P1" },
       Event.release 1, Event.convertFromPath 2, Event.acquire 2,
       Event.recognize { mode := PyMode.RGB, content := "P2" }, Event.release 2,
       Event.convertFromPath 3, Event.acquire 3,
       Event.recognize { mode := PyMode.RGB, content := "P3" }, Event.release 3,
       Event.removeTemp] 1 (by decide)⟩
